import Mathlib

/-!
EnvHelper — a verification development

A shallow embedding of the EnvHelper C++20 header (library.h): typed access to
process environment variables, with (`EnvHelperWithDefault`) and without
(`EnvHelper`) a default value.  The embedding models:

* the process environment as a partial map from names to the textual content of
  the variable (the characters up to, and excluding, the NUL terminator);
* the closed set of supported target types (`int`, `long`, `long long`,
  `float`, `double`, `long double`, `char`, `std::string_view`);
* the `std::sto*` conversion family (`stoi`/`stol`/`stoll` over `strtol`
  base 10, `stof`/`stod`/`stold` over `strtof`-style decimal parsing), with
  `invalid_argument` / `out_of_range` failures;
* the output streams as lists of structured events: each `std::cout` /
  `std::cerr` statement of the source becomes one event carrying exactly the
  data interpolated into it;
* the static-local memoization of `EnvHelperWithDefault::get` as an explicit
  cache cell threaded through a sequence of calls.

Numeric conventions: an LP64 platform (`int` 32-bit, `long` and `long long`
64-bit), the "C" locale for `isspace`.  Floating-point values are modelled as
exact rationals: the parser returns the exact value of the text, both for the
decimal form and for the hexadecimal form (`0x…`, with its optional binary
exponent); rounding to the nearest representable IEEE value, the infinity/NaN
word forms and underflow reporting are not modelled.  Every claim settled at a
floating-point instance concerns only parse success/failure or exactly
representable values, where the rational model and IEEE agree, and none
constrains an input matching an infinity/NaN word form (each constrained input
starts with a digit run).
-/

/-- The process environment: maps a variable name to the content of the
variable when set (`getenv` returns non-null), `none` when unset.  The content
is the character sequence up to the NUL terminator, excluded. -/
abbrev Env : Type := String → Option String

/-- The closed set of supported target types of the two helpers, from the
`if constexpr` dispatch chains of `EnvHelperWithDefault::get` and
`EnvHelper::get` (library.h). -/
inductive TargetType
  | int
  | long
  | longlong
  | float
  | double
  | longdouble
  | char
  | stringview
  deriving DecidableEq, Repr

/-- A value of one of the supported target types.  Integer types carry an
unbounded `Int` (the range checks live in the conversion functions);
floating-point types carry the exact rational value; `stringview` carries the
viewed content. -/
inductive Value
  | vInt (n : Int)
  | vLong (n : Int)
  | vLongLong (n : Int)
  | vFloat (q : ℚ)
  | vDouble (q : ℚ)
  | vLongDouble (q : ℚ)
  | vChar (c : Char)
  | vStringView (s : String)
  deriving DecidableEq, Repr

/-- Failure modes of the `std::sto*` conversion family:
`std::invalid_argument` (no conversion could be performed) and
`std::out_of_range` (the converted value is outside the range of the result
type). -/
inductive ParseError
  | invalidArgument
  | outOfRange
  deriving DecidableEq, Repr

/-- Failure modes of `EnvHelper::get` (the no-default resolver): the
`std::runtime_error` thrown when the variable is not set, and the re-thrown
conversion exception when parsing fails (the latter carries the underlying
parse failure). -/
inductive EnvError
  | notSet
  | conversionFailed (e : ParseError)
  deriving DecidableEq, Repr

/-- `isspace` in the "C" locale, as consumed by `strtol`/`strtof` before the
number. -/
def isCSpace (c : Char) : Bool :=
  c = ' ' || c = '\t' || c = '\n' || Char.ofNat 11 = c || Char.ofNat 12 = c || c = '\r'

/-- Split an optional single leading sign: returns (negative?, rest). -/
def splitSign : List Char → Bool × List Char
  | [] => (false, [])
  | c :: rest =>
      if c = '-' then (true, rest)
      else if c = '+' then (false, rest)
      else (false, c :: rest)

/-- Value of a (already validated) decimal digit string, most significant
first. -/
def digitsToNat (ds : List Char) : Nat :=
  ds.foldl (fun acc c => acc * 10 + (c.toNat - 48)) 0

/-- `strtol(s, _, 10)` up to range checking: skip "C"-locale whitespace, one
optional sign, then the longest run of decimal digits.  `none` when no digit
was consumed (no conversion: `std::invalid_argument` in the `sto*` wrappers);
otherwise the exact signed value (unbounded — the callers apply their result
type's range check). -/
def strtolModel (s : List Char) : Option Int :=
  let t := s.dropWhile isCSpace
  let (neg, t₁) := splitSign t
  let ds := t₁.takeWhile Char.isDigit
  if ds.isEmpty then none
  else some (if neg then -(digitsToNat ds : Int) else (digitsToNat ds : Int))

/-- INT_MIN on the modelled platform. -/
def intMin : Int := -(2 ^ 31)

/-- INT_MAX on the modelled platform. -/
def intMax : Int := 2 ^ 31 - 1

/-- LONG_MIN = LLONG_MIN on the modelled LP64 platform. -/
def longMin : Int := -(2 ^ 63)

/-- LONG_MAX = LLONG_MAX on the modelled LP64 platform. -/
def longMax : Int := 2 ^ 63 - 1

/-- `std::stoi`: `strtol` base 10 plus the `int` range check;
`std::invalid_argument` when nothing was converted, `std::out_of_range` when
the value does not fit in `int`. -/
def stoiModel (s : String) : Except ParseError Int :=
  match strtolModel s.data with
  | none => .error .invalidArgument
  | some v => if v < intMin ∨ intMax < v then .error .outOfRange else .ok v

/-- `std::stol`: `strtol` base 10 plus the `long` range check. -/
def stolModel (s : String) : Except ParseError Int :=
  match strtolModel s.data with
  | none => .error .invalidArgument
  | some v => if v < longMin ∨ longMax < v then .error .outOfRange else .ok v

/-- `std::stoll`: `strtoll` base 10 plus the `long long` range check
(identical to `long` on LP64). -/
def stollModel (s : String) : Except ParseError Int :=
  match strtolModel s.data with
  | none => .error .invalidArgument
  | some v => if v < longMin ∨ longMax < v then .error .outOfRange else .ok v

/-- Mantissa of a decimal floating-point literal: a digit run, optionally with
one fraction point and a further digit run; at least one digit overall.
Returns the combined digit value `a` and the fraction digit count `k` — the
mantissa's exact value is `a / 10 ^ k` — and the unconsumed rest. -/
def parseMantissa (l : List Char) : Option ((ℕ × ℕ) × List Char) :=
  let ip := l.takeWhile Char.isDigit
  let r₁ := l.dropWhile Char.isDigit
  match r₁ with
  | [] => if ip.isEmpty then none else some ((digitsToNat ip, 0), [])
  | c :: r₂ =>
      if c = '.' then
        let fp := r₂.takeWhile Char.isDigit
        let r₃ := r₂.dropWhile Char.isDigit
        if ip.isEmpty ∧ fp.isEmpty then none
        else some ((digitsToNat (ip ++ fp), fp.length), r₃)
      else if ip.isEmpty then none else some ((digitsToNat ip, 0), c :: r₂)

/-- Optional exponent part `e[sign]digits` of a decimal floating-point
literal; consumed only when at least one exponent digit follows, exactly as
`strtof` backtracks on `"123e"` or `"123eab"`. -/
def parseExpPart (l : List Char) : Int × List Char :=
  match l with
  | [] => (0, [])
  | c :: rest =>
      if c = 'e' ∨ c = 'E' then
        let (neg, r₁) := splitSign rest
        let ds := r₁.takeWhile Char.isDigit
        let r₂ := r₁.dropWhile Char.isDigit
        if ds.isEmpty then (0, c :: rest)
        else ((if neg then -(digitsToNat ds : Int) else (digitsToNat ds : Int)), r₂)
      else (0, c :: rest)

/-- The exact rational `a · 10 ^ t` for a natural digit value `a` and a signed
decimal exponent `t`, computed through integer arithmetic and `mkRat` (so that
it evaluates by kernel reduction). -/
def decScale (a : ℕ) (t : Int) : ℚ :=
  if 0 ≤ t then ((a * 10 ^ t.toNat : ℕ) : ℚ) else mkRat (a : Int) (10 ^ (-t).toNat)

/-- The exact rational `a · 2 ^ t` for a natural digit value `a` and a signed
binary exponent `t` (the value of a hexadecimal floating literal), computed
through integer arithmetic and `mkRat`. -/
def binScale (a : ℕ) (t : Int) : ℚ :=
  if 0 ≤ t then ((a * 2 ^ t.toNat : ℕ) : ℚ) else mkRat (a : Int) (2 ^ (-t).toNat)

/-- Hexadecimal digit, both letter cases (`isxdigit` in the "C" locale). -/
def isHexDigitCh (c : Char) : Bool :=
  c.isDigit || ('a' ≤ c && c ≤ 'f') || ('A' ≤ c && c ≤ 'F')

/-- Value of one hexadecimal digit. -/
def hexDigitVal (c : Char) : ℕ :=
  if c.isDigit then c.toNat - 48
  else if 'a' ≤ c && c ≤ 'f' then c.toNat - 87
  else c.toNat - 55

/-- Value of a (already validated) hexadecimal digit string, most significant
first. -/
def hexDigitsToNat (ds : List Char) : ℕ :=
  ds.foldl (fun acc c => acc * 16 + hexDigitVal c) 0

/-- Mantissa of a hexadecimal floating literal (the part after `0x`): a hex
digit run, optionally with one fraction point and a further hex digit run; at
least one hex digit overall.  Returns the combined digit value `a` and the
fraction digit count `k` — the mantissa's exact value is `a / 16 ^ k` — and
the unconsumed rest. -/
def parseHexMantissa (l : List Char) : Option ((ℕ × ℕ) × List Char) :=
  let ip := l.takeWhile isHexDigitCh
  let r₁ := l.dropWhile isHexDigitCh
  match r₁ with
  | [] => if ip.isEmpty then none else some ((hexDigitsToNat ip, 0), [])
  | c :: r₂ =>
      if c = '.' then
        let fp := r₂.takeWhile isHexDigitCh
        let r₃ := r₂.dropWhile isHexDigitCh
        if ip.isEmpty ∧ fp.isEmpty then none
        else some ((hexDigitsToNat (ip ++ fp), fp.length), r₃)
      else if ip.isEmpty then none else some ((hexDigitsToNat ip, 0), c :: r₂)

/-- Optional binary exponent part `p[sign]digits` (decimal digits) of a
hexadecimal floating literal; consumed only when at least one exponent digit
follows, exactly as `strtof` backtracks on `"0x1p"`. -/
def parseBinExpPart (l : List Char) : Int × List Char :=
  match l with
  | [] => (0, [])
  | c :: rest =>
      if c = 'p' ∨ c = 'P' then
        let (neg, r₁) := splitSign rest
        let ds := r₁.takeWhile Char.isDigit
        let r₂ := r₁.dropWhile Char.isDigit
        if ds.isEmpty then (0, c :: rest)
        else ((if neg then -(digitsToNat ds : Int) else (digitsToNat ds : Int)), r₂)
      else (0, c :: rest)

/-- Whether the text (after whitespace and sign) starts with the hexadecimal
prefix `0x` / `0X` that switches `strtof` to hexadecimal parsing. -/
def isHexStart : List Char → Bool
  | c :: x :: _ => c = '0' && (x = 'x' || x = 'X')
  | _ => false

/-- `strtof`-style parsing (exact value): skip "C"-locale whitespace, one
optional sign, then either a hexadecimal floating literal — `0x`/`0X`, a hex
mantissa `a / 16 ^ k`, an optional binary exponent `e`, value
`± a · 2 ^ (e − 4k)`; when no hex digit follows the prefix the subject
sequence is just the initial `0` — or a decimal mantissa `a / 10 ^ k` with an
optional exponent `e`, value `± a · 10 ^ (e − k)`.  `none` when no conversion
was performed.  The infinity and NaN word forms are not modelled (their values
are not rationals); no claim below evaluates the parser on such inputs, since
every input they constrain starts with a digit run. -/
def strtofModel (s : List Char) : Option ℚ :=
  let t := s.dropWhile isCSpace
  let (neg, t₁) := splitSign t
  if isHexStart t₁ then
    match parseHexMantissa (t₁.drop 2) with
    | none => some (if neg then -(0 : ℚ) else 0)
    | some ((a, k), r) =>
        let e := (parseBinExpPart r).1
        let v := binScale a (e - 4 * (k : Int))
        some (if neg then -v else v)
  else
    match parseMantissa t₁ with
    | none => none
    | some ((a, k), r) =>
        let e := (parseExpPart r).1
        let v := decScale a (e - (k : Int))
        some (if neg then -v else v)

/-- Binary exponentiation with explicit fuel, so that large powers such as
2^16320 evaluate by kernel reduction in logarithmically many steps. -/
def powAux : ℕ → ℕ → ℕ → ℕ
  | 0, _, _ => 1
  | fuel + 1, b, n =>
      if n = 0 then 1
      else
        let h := powAux fuel (b * b) (n / 2)
        if n % 2 = 1 then b * h else h

/-- `b ^ n` by binary exponentiation (see `powFast_eq`). -/
def powFast (b n : ℕ) : ℕ := powAux n b n

/-- FLT_MAX = (2^24 − 1) · 2^104, exactly (computed in ℕ and cast, so that it
evaluates by kernel reduction). -/
def fltMax : ℚ := ((powFast 2 24 - 1) * powFast 2 104 : ℕ)

/-- DBL_MAX = (2^53 − 1) · 2^971, exactly. -/
def dblMax : ℚ := ((powFast 2 53 - 1) * powFast 2 971 : ℕ)

/-- LDBL_MAX of the x87 80-bit format = (2^64 − 1) · 2^16320, exactly. -/
def ldblMax : ℚ := ((powFast 2 64 - 1) * powFast 2 16320 : ℕ)

/-- `std::stof`: decimal `strtof` parsing with the `float` overflow check
(underflow reporting and rounding are not modelled). -/
def stofModel (s : String) : Except ParseError ℚ :=
  match strtofModel s.data with
  | none => .error .invalidArgument
  | some v => if v < -fltMax ∨ fltMax < v then .error .outOfRange else .ok v

/-- `std::stod`: decimal parsing with the `double` overflow check. -/
def stodModel (s : String) : Except ParseError ℚ :=
  match strtofModel s.data with
  | none => .error .invalidArgument
  | some v => if v < -dblMax ∨ dblMax < v then .error .outOfRange else .ok v

/-- `std::stold`: decimal parsing with the `long double` overflow check. -/
def stoldModel (s : String) : Except ParseError ℚ :=
  match strtofModel s.data with
  | none => .error .invalidArgument
  | some v => if v < -ldblMax ∨ ldblMax < v then .error .outOfRange else .ok v

/-- `env[0]` on the NUL-terminated C string holding `s`: the first character,
or the NUL terminator itself when `s` is empty.  Never fails. -/
def charOfEnv (s : String) : Char := s.data.headD (Char.ofNat 0)

/-- The `if constexpr` conversion dispatch shared by both helpers
(library.h, `EnvHelperWithDefault::get` and `EnvHelper::get`): `sto*` for the
numeric types, `env[0]` for `char`, `std::string_view(env)` (the raw content,
no copy, no validation) for the text target. -/
def convert : TargetType → String → Except ParseError Value
  | .int, s => (stoiModel s).map Value.vInt
  | .long, s => (stolModel s).map Value.vLong
  | .longlong, s => (stollModel s).map Value.vLongLong
  | .float, s => (stofModel s).map Value.vFloat
  | .double, s => (stodModel s).map Value.vDouble
  | .longdouble, s => (stoldModel s).map Value.vLongDouble
  | .char, s => .ok (.vChar (charOfEnv s))
  | .stringview, s => .ok (.vStringView s)

/-- The name of the conversion function a given target type dispatches to —
the `what()` text of the exceptions thrown by the libstdc++ `sto*` family.
`char` and `stringview` conversions cannot throw, so their entry is never
emitted. -/
def stoName : TargetType → String
  | .int => "stoi"
  | .long => "stol"
  | .longlong => "stoll"
  | .float => "stof"
  | .double => "stod"
  | .longdouble => "stold"
  | .char => ""
  | .stringview => ""

/-- `DefaultValueType<T, N>`: the stored default.  Scalar instantiations store
the value directly; the `char[N]` instantiation (`dText`) stores the copied
literal including its terminator (`buf.length` is the capacity `N`). -/
inductive DefaultValueType
  | dInt (n : Int)
  | dLong (n : Int)
  | dLongLong (n : Int)
  | dFloat (q : ℚ)
  | dDouble (q : ℚ)
  | dLongDouble (q : ℚ)
  | dChar (c : Char)
  | dText (buf : List Char)
  deriving DecidableEq, Repr

/-- The `ExportType` of a `DefaultValueType` instantiation: `std::string_view`
for `char[N]` storage, the scalar type itself otherwise. -/
def DefaultValueType.targetType : DefaultValueType → TargetType
  | .dInt _ => .int
  | .dLong _ => .long
  | .dLongLong _ => .longlong
  | .dFloat _ => .float
  | .dDouble _ => .double
  | .dLongDouble _ => .longdouble
  | .dChar _ => .char
  | .dText _ => .stringview

/-- `DefaultValueType::get`: for `char[N]` storage returns
`std::string_view{value, N − 1}` — a view of the first `N − 1` stored
characters, the terminator excluded; for scalars returns the stored value
unchanged. -/
def DefaultValueType.get : DefaultValueType → Value
  | .dInt n => .vInt n
  | .dLong n => .vLong n
  | .dLongLong n => .vLongLong n
  | .dFloat q => .vFloat q
  | .dDouble q => .vDouble q
  | .dLongDouble q => .vLongDouble q
  | .dChar c => .vChar c
  | .dText buf => .vStringView ⟨buf.take (buf.length - 1)⟩

/-- One `std::cout` statement of the source, with the data it interpolates:
the "not set, using default" notice and the "is set to" notice (both guarded
by `EnableValueMessage`). -/
inductive Notice
  | notSetUsingDefault (name : String) (dv : DefaultValueType)
  | setTo (name : String) (raw : String)
  deriving DecidableEq, Repr

/-- One `std::cerr` statement of the source, with the data it interpolates:
the with-default conversion-failure line (variable name, raw text, substituted
default), the no-default not-set line (variable name), the no-default
conversion-failure line (variable name, raw text), and the `e.what()` line
that follows either conversion-failure line. -/
inductive Diagnostic
  | conversionFailedWithDefault (name : String) (raw : String) (default : Value)
  | notSetNoDefault (name : String)
  | conversionFailedNoDefault (name : String) (raw : String)
  | what (s : String)
  deriving DecidableEq, Repr

/-- Outcome of one evaluation of the initialization lambda of
`EnvHelperWithDefault::get`: the produced value (the function is total — every
conversion failure is caught inside), plus the emitted streams. -/
structure RunResultD where
  value : Value
  notices : List Notice
  diags : List Diagnostic
  deriving Repr

/-- Outcome of one call of `EnvHelper::get`: the returned value or the
escaping exception, plus the emitted streams. -/
structure RunResult where
  result : Except EnvError Value
  notices : List Notice
  diags : List Diagnostic
  deriving Repr

namespace EnvHelperWithDefault

/-- The initialization lambda of `EnvHelperWithDefault<EnvName, DefaultValue,
EnableValueMessage>::get` (library.h, the body of `static auto value = [...]`):
look the variable up; when absent, notice (if enabled) and export the default;
when present, notice (if enabled) and convert, catching any conversion
exception — on failure emit the two diagnostic lines and export the default. -/
def resolve (name : String) (dv : DefaultValueType) (enableMsg : Bool)
    (env : Env) : RunResultD :=
  match env name with
  | none =>
      { value := dv.get
        notices := if enableMsg then [.notSetUsingDefault name dv] else []
        diags := [] }
  | some e =>
      let notices : List Notice := if enableMsg then [.setTo name e] else []
      match convert dv.targetType e with
      | .ok v => { value := v, notices := notices, diags := [] }
      | .error _ =>
          { value := dv.get
            notices := notices
            diags := [.conversionFailedWithDefault name e dv.get,
                      .what (stoName dv.targetType)] }

/-- One call of `EnvHelperWithDefault::get` with the static-local cache made
explicit: a filled cache returns the cached value untouched; an empty cache
runs the initialization lambda once and fills the cache.  Returns the value,
the cache after the call, and the number of environment lookups this call
performed. -/
def call (name : String) (dv : DefaultValueType) (enableMsg : Bool)
    (cache : Option Value) (env : Env) : Value × Option Value × Nat :=
  match cache with
  | some v => (v, some v, 0)
  | none =>
      let r := resolve name dv enableMsg env
      (r.value, some r.value, 1)

end EnvHelperWithDefault

namespace EnvHelper

/-- `EnvHelper<EnvName, Type, EnableValueMessage>::get` (library.h): no cache.
When the variable is absent, emit the not-set diagnostic and throw
`std::runtime_error`; when present, notice (if enabled) and convert; when the
conversion throws, emit the two diagnostic lines and re-throw the underlying
parse exception. -/
def get (name : String) (t : TargetType) (enableMsg : Bool) (env : Env) :
    RunResult :=
  match env name with
  | none =>
      { result := .error .notSet
        notices := []
        diags := [.notSetNoDefault name] }
  | some e =>
      let notices : List Notice := if enableMsg then [.setTo name e] else []
      match convert t e with
      | .ok v => { result := .ok v, notices := notices, diags := [] }
      | .error pe =>
          { result := .error (.conversionFailed pe)
            notices := notices
            diags := [.conversionFailedNoDefault name e, .what (stoName t)] }

end EnvHelper

/-- Decidable equality for `Except`, so that concrete resolver outcomes can be
settled by `decide`. -/
instance {ε α : Type} [DecidableEq ε] [DecidableEq α] : DecidableEq (Except ε α)
  | .ok a, .ok b =>
      if h : a = b then .isTrue (by rw [h]) else .isFalse (by simp [h])
  | .ok _, .error _ => .isFalse (by simp)
  | .error _, .ok _ => .isFalse (by simp)
  | .error a, .error b =>
      if h : a = b then .isTrue (by rw [h]) else .isFalse (by simp [h])

/-- Test fixture: an environment with exactly one variable set. -/
def envSet (n v : String) : Env := fun m => if m = n then some v else none

/-- Test fixture: the empty environment. -/
def envEmpty : Env := fun _ => none

/-- The six numeric target types (those converted through the `sto*`
family). -/
def TargetType.isNumeric : TargetType → Bool
  | .int | .long | .longlong | .float | .double | .longdouble => true
  | .char | .stringview => false

/-- The three floating-point target types. -/
def TargetType.isFloatTy : TargetType → Bool
  | .float | .double | .longdouble => true
  | _ => false

/-- The `Value` a numeric target type assigns to a natural number (the last
two cases are unreachable for numeric targets). -/
def mkNumValue : TargetType → ℕ → Value
  | .int, n => .vInt n
  | .long, n => .vLong n
  | .longlong, n => .vLongLong n
  | .float, n => .vFloat n
  | .double, n => .vDouble n
  | .longdouble, n => .vLongDouble n
  | .char, n => .vChar (Char.ofNat n)
  | .stringview, _ => .vStringView ""

/-- Whether the natural number `n` is within the range of a numeric target
type (true for non-numeric targets). -/
def natFits : TargetType → ℕ → Bool
  | .int, n => decide ((n : Int) ≤ intMax)
  | .long, n => decide ((n : Int) ≤ longMax)
  | .longlong, n => decide ((n : Int) ≤ longMax)
  | .float, n => decide (¬ fltMax < (n : ℚ))
  | .double, n => decide (¬ dblMax < (n : ℚ))
  | .longdouble, n => decide (¬ ldblMax < (n : ℚ))
  | _, _ => true

/-- Whether the suffix `r` cannot extend a numeric parse of the given target
type that consumed exactly the digit run `d` before `r`: the first character
of `r` (if any) is not a digit, and for floating-point targets also not a
fraction point or decimal exponent letter, nor — when the consumed run is the
single digit `0` — one of the letters `x`/`X` that would turn `0x…` into a
hexadecimal floating literal. -/
def stopsNum (t : TargetType) (d : List Char) : List Char → Bool
  | [] => true
  | c :: _ =>
      if t.isFloatTy then
        !(c.isDigit || c = '.' || c = 'e' || c = 'E')
          && !(d = ['0'] && (c = 'x' || c = 'X'))
      else !c.isDigit

/-! ## Unfolding lemmas for the two resolvers -/

theorem EnvHelperWithDefault.resolve_unset (name : String) (dv : DefaultValueType)
    (msg : Bool) (env : Env) (h : env name = none) :
    EnvHelperWithDefault.resolve name dv msg env =
      { value := dv.get
        notices := if msg then [.notSetUsingDefault name dv] else []
        diags := [] } := by
  unfold EnvHelperWithDefault.resolve
  rw [h]

theorem EnvHelperWithDefault.resolve_set_ok (name s : String) (dv : DefaultValueType)
    (msg : Bool) (env : Env) (v : Value) (h : env name = some s)
    (hc : convert dv.targetType s = .ok v) :
    EnvHelperWithDefault.resolve name dv msg env =
      { value := v
        notices := if msg then [.setTo name s] else []
        diags := [] } := by
  unfold EnvHelperWithDefault.resolve
  rw [h]
  simp only [hc]

theorem EnvHelperWithDefault.resolve_set_err (name s : String) (dv : DefaultValueType)
    (msg : Bool) (env : Env) (e : ParseError) (h : env name = some s)
    (hc : convert dv.targetType s = .error e) :
    EnvHelperWithDefault.resolve name dv msg env =
      { value := dv.get
        notices := if msg then [.setTo name s] else []
        diags := [.conversionFailedWithDefault name s dv.get,
                  .what (stoName dv.targetType)] } := by
  unfold EnvHelperWithDefault.resolve
  rw [h]
  simp only [hc]

theorem EnvHelper.get_unset (name : String) (t : TargetType) (msg : Bool) (env : Env)
    (h : env name = none) :
    EnvHelper.get name t msg env =
      { result := .error .notSet
        notices := []
        diags := [.notSetNoDefault name] } := by
  unfold EnvHelper.get
  rw [h]

theorem EnvHelper.get_set_ok (name s : String) (t : TargetType) (msg : Bool) (env : Env)
    (v : Value) (h : env name = some s) (hc : convert t s = .ok v) :
    EnvHelper.get name t msg env =
      { result := .ok v
        notices := if msg then [.setTo name s] else []
        diags := [] } := by
  unfold EnvHelper.get
  rw [h]
  simp only [hc]

theorem EnvHelper.get_set_err (name s : String) (t : TargetType) (msg : Bool) (env : Env)
    (e : ParseError) (h : env name = some s) (hc : convert t s = .error e) :
    EnvHelper.get name t msg env =
      { result := .error (.conversionFailed e)
        notices := if msg then [.setTo name s] else []
        diags := [.conversionFailedNoDefault name s, .what (stoName t)] } := by
  unfold EnvHelper.get
  rw [h]
  simp only [hc]

/-! ## The claims -/

/-- C1: for every supported target type and every string s that is a valid
textual representation of a value v of that type (i.e. the type's conversion
parses s to v), resolving a variable whose environment value is s yields
exactly v — for the with-default resolver and for the no-default resolver. -/
theorem c1_roundtrip_parse (name s : String) (dv : DefaultValueType)
    (t : TargetType) (msg : Bool) (env : Env) (v w : Value)
    (hset : env name = some s) :
    (convert dv.targetType s = .ok v →
      (EnvHelperWithDefault.resolve name dv msg env).value = v) ∧
    (convert t s = .ok w → (EnvHelper.get name t msg env).result = .ok w) := by
  constructor
  · intro hc
    rw [EnvHelperWithDefault.resolve_set_ok name s dv msg env v hset hc]
  · intro hc
    rw [EnvHelper.get_set_ok name s t msg env w hset hc]

/-- C1 witness: a variable set to "123" with 32-bit integer target resolves to
123 in both resolvers. -/
theorem c1_roundtrip_parse_witness :
    (EnvHelperWithDefault.resolve "X" (.dInt 0) false (envSet "X" "123")).value
        = .vInt 123 ∧
    (EnvHelper.get "X" .int false (envSet "X" "123")).result = .ok (.vInt 123) := by
  have h := c1_roundtrip_parse "X" "123" (.dInt 0) .int false (envSet "X" "123")
    (.vInt 123) (.vInt 123) (by decide)
  exact ⟨h.1 (by decide), h.2 (by decide)⟩

/-- C2: with a default configured and the variable absent, the with-default
resolver returns exactly the default's export form and raises nothing on the
error stream; for a text default of capacity N the export is the view of the
stored buffer of length N − 1, the terminator excluded. -/
theorem c2_absent_returns_default (name : String) (dv : DefaultValueType)
    (msg : Bool) (env : Env) (hunset : env name = none) :
    (EnvHelperWithDefault.resolve name dv msg env).value = dv.get ∧
    (EnvHelperWithDefault.resolve name dv msg env).diags = [] ∧
    (∀ buf : List Char, dv = .dText buf →
      (EnvHelperWithDefault.resolve name dv msg env).value
          = .vStringView ⟨buf.take (buf.length - 1)⟩ ∧
      (String.mk (buf.take (buf.length - 1))).length = buf.length - 1) := by
  rw [EnvHelperWithDefault.resolve_unset name dv msg env hunset]
  refine ⟨rfl, rfl, ?_⟩
  rintro buf rfl
  refine ⟨rfl, ?_⟩
  show (buf.take (buf.length - 1)).length = buf.length - 1
  rw [List.length_take]
  omega

/-- C2 witness: with variable "UNSET_VAR" absent and integer default 42 the
result is 42; with text default "42" (capacity 3) the result is the view "42"
of length 2. -/
theorem c2_absent_returns_default_witness :
    (EnvHelperWithDefault.resolve "UNSET_VAR" (.dInt 42) true envEmpty).value
        = .vInt 42 ∧
    (EnvHelperWithDefault.resolve "UNSET_VAR"
        (.dText ['4', '2', Char.ofNat 0]) true envEmpty).value
        = .vStringView "42" ∧
    ("42" : String).length = 2 := by
  refine ⟨(c2_absent_returns_default "UNSET_VAR" (.dInt 42) true envEmpty rfl).1,
    ?_, by decide⟩
  have h := (c2_absent_returns_default "UNSET_VAR" (.dText ['4', '2', Char.ofNat 0])
    true envEmpty rfl).2.2 ['4', '2', Char.ofNat 0] rfl
  rw [h.1]
  decide

/-- C3: with a default configured and the variable present but unparsable, the
with-default resolver returns exactly the default's export form, emits to the
error stream a diagnostic carrying the variable name and the raw text (then
the parse failure reason), and the failure does not propagate (the outcome is
an ordinary value). -/
theorem c3_unparsable_returns_default (name s : String) (dv : DefaultValueType)
    (msg : Bool) (env : Env) (e : ParseError) (hset : env name = some s)
    (herr : convert dv.targetType s = .error e) :
    (EnvHelperWithDefault.resolve name dv msg env).value = dv.get ∧
    (EnvHelperWithDefault.resolve name dv msg env).diags
        = [.conversionFailedWithDefault name s dv.get,
           .what (stoName dv.targetType)] := by
  rw [EnvHelperWithDefault.resolve_set_err name s dv msg env e hset herr]
  exact ⟨rfl, rfl⟩

/-- C3 witness: variable "X" set to "abc" with integer target and default 42
yields 42, with the conversion-failure diagnostic naming "X" and "abc". -/
theorem c3_unparsable_returns_default_witness :
    (EnvHelperWithDefault.resolve "X" (.dInt 42) true (envSet "X" "abc")).value
        = .vInt 42 ∧
    (EnvHelperWithDefault.resolve "X" (.dInt 42) true (envSet "X" "abc")).diags
        = [.conversionFailedWithDefault "X" "abc" (.vInt 42), .what "stoi"] := by
  exact c3_unparsable_returns_default "X" "abc" (.dInt 42) true (envSet "X" "abc")
    .invalidArgument (by decide) (by decide)

/-- C4: the no-default resolver fails with NotSet when the variable is absent,
and with ConversionFailed wrapping the underlying parse failure when the
variable is present but unparsable; in both cases a diagnostic is written to
the error stream, and the failure is surfaced in the call's result (never
swallowed). -/
theorem c4_required_failures (name : String) (t : TargetType) (msg : Bool)
    (env : Env) :
    (env name = none →
      (EnvHelper.get name t msg env).result = .error .notSet ∧
      (EnvHelper.get name t msg env).diags = [.notSetNoDefault name]) ∧
    (∀ s e, env name = some s → convert t s = .error e →
      (EnvHelper.get name t msg env).result = .error (.conversionFailed e) ∧
      (EnvHelper.get name t msg env).diags
          = [.conversionFailedNoDefault name s, .what (stoName t)]) := by
  constructor
  · intro h
    rw [EnvHelper.get_unset name t msg env h]
    exact ⟨rfl, rfl⟩
  · intro s e h hc
    rw [EnvHelper.get_set_err name s t msg env e h hc]
    exact ⟨rfl, rfl⟩

/-- C4 witness: with integer target, "X" absent fails with NotSet; "X" set to
"abc" fails with ConversionFailed wrapping invalid_argument; both with their
diagnostics. -/
theorem c4_required_failures_witness :
    (EnvHelper.get "X" .int true envEmpty).result = .error .notSet ∧
    (EnvHelper.get "X" .int true envEmpty).diags = [.notSetNoDefault "X"] ∧
    (EnvHelper.get "X" .int true (envSet "X" "abc")).result
        = .error (.conversionFailed .invalidArgument) ∧
    (EnvHelper.get "X" .int true (envSet "X" "abc")).diags
        = [.conversionFailedNoDefault "X" "abc", .what "stoi"] := by
  have h₁ := (c4_required_failures "X" .int true envEmpty).1 rfl
  have h₂ := (c4_required_failures "X" .int true (envSet "X" "abc")).2
    "abc" .invalidArgument (by decide) (by decide)
  exact ⟨h₁.1, h₁.2, h₂.1, h₂.2⟩

/-- C5: the with-default resolver never fails: for every environment state —
variable absent, present and parsable, or present and unparsable — and every
supported target type (every default), it produces an ordinary value (the
parsed value or the default); no error outcome exists in its result type, so
no failure can escape to the caller. -/
theorem c5_with_default_total (name : String) (dv : DefaultValueType)
    (msg : Bool) (env : Env) :
    (env name = none ∧
        (EnvHelperWithDefault.resolve name dv msg env).value = dv.get) ∨
    (∃ s v, env name = some s ∧ convert dv.targetType s = .ok v ∧
        (EnvHelperWithDefault.resolve name dv msg env).value = v) ∨
    (∃ s e, env name = some s ∧ convert dv.targetType s = .error e ∧
        (EnvHelperWithDefault.resolve name dv msg env).value = dv.get) := by
  cases hset : env name with
  | none =>
      left
      exact ⟨rfl, by rw [EnvHelperWithDefault.resolve_unset name dv msg env hset]⟩
  | some s =>
      right
      cases hc : convert dv.targetType s with
      | ok v =>
          left
          exact ⟨s, v, rfl,
            hc, by rw [EnvHelperWithDefault.resolve_set_ok name s dv msg env v hset hc]⟩
      | error e =>
          right
          exact ⟨s, e, rfl,
            hc, by rw [EnvHelperWithDefault.resolve_set_err name s dv msg env e hset hc]⟩

/-- C6: the with-default resolver is memoized: the first call performs the one
environment lookup and conversion and fills the cache; any later call, under
any (possibly mutated) environment, performs no lookup, leaves the cache
unchanged, and returns a value identical to the first call's. -/
theorem c6_memoized (name : String) (dv : DefaultValueType) (msg : Bool)
    (env₁ env₂ : Env) :
    (EnvHelperWithDefault.call name dv msg none env₁).1
        = (EnvHelperWithDefault.resolve name dv msg env₁).value ∧
    (EnvHelperWithDefault.call name dv msg none env₁).2.2 = 1 ∧
    (EnvHelperWithDefault.call name dv msg none env₁).2.1
        = some (EnvHelperWithDefault.call name dv msg none env₁).1 ∧
    (EnvHelperWithDefault.call name dv msg
        (EnvHelperWithDefault.call name dv msg none env₁).2.1 env₂)
        = ((EnvHelperWithDefault.call name dv msg none env₁).1,
           (EnvHelperWithDefault.call name dv msg none env₁).2.1, 0) :=
  ⟨rfl, rfl, rfl, rfl⟩

/-- C7: the no-default resolver has no cache: every call performs the full
lookup and parse against the environment current at that call, so two calls
under environments giving the variable different parsable values return the
two different values. -/
theorem c7_no_caching (name : String) (t : TargetType) (msg : Bool)
    (env₁ env₂ : Env) (s₁ s₂ : String) (v₁ v₂ : Value)
    (h₁ : env₁ name = some s₁) (h₂ : env₂ name = some s₂)
    (hc₁ : convert t s₁ = .ok v₁) (hc₂ : convert t s₂ = .ok v₂) :
    (EnvHelper.get name t msg env₁).result = .ok v₁ ∧
    (EnvHelper.get name t msg env₂).result = .ok v₂ ∧
    (v₁ ≠ v₂ →
      (EnvHelper.get name t msg env₁).result ≠ (EnvHelper.get name t msg env₂).result) := by
  refine ⟨?_, ?_, ?_⟩
  · rw [EnvHelper.get_set_ok name s₁ t msg env₁ v₁ h₁ hc₁]
  · rw [EnvHelper.get_set_ok name s₂ t msg env₂ v₂ h₂ hc₂]
  · intro hne
    rw [EnvHelper.get_set_ok name s₁ t msg env₁ v₁ h₁ hc₁,
        EnvHelper.get_set_ok name s₂ t msg env₂ v₂ h₂ hc₂]
    simp [hne]

/-- C7 witness: with "X" set to "1" at the first call and to "2" at the
second, the two calls return 1 and 2 — the result follows the environment at
call time. -/
theorem c7_no_caching_witness :
    (EnvHelper.get "X" .int false (envSet "X" "1")).result = .ok (.vInt 1) ∧
    (EnvHelper.get "X" .int false (envSet "X" "2")).result = .ok (.vInt 2) ∧
    (EnvHelper.get "X" .int false (envSet "X" "1")).result
        ≠ (EnvHelper.get "X" .int false (envSet "X" "2")).result := by
  have h := c7_no_caching "X" .int false (envSet "X" "1") (envSet "X" "2")
    "1" "2" (.vInt 1) (.vInt 2) (by decide) (by decide) (by decide) (by decide)
  exact ⟨h.1, h.2.1, h.2.2 (by decide)⟩

/-- C9: for the text (string-view) target, resolving a present variable
returns a view whose content is exactly the raw environment string (the
characters up to the excluded terminator — its length is the raw string's
length) in both resolvers: the conversion is the identity on the content, with
no transformation or validation. -/
theorem c9_text_exact (name s : String) (dv : DefaultValueType) (msg : Bool)
    (env : Env) (hset : env name = some s) (ht : dv.targetType = .stringview) :
    convert .stringview s = .ok (.vStringView s) ∧
    (EnvHelperWithDefault.resolve name dv msg env).value = .vStringView s ∧
    (EnvHelper.get name .stringview msg env).result = .ok (.vStringView s) := by
  refine ⟨rfl, ?_, ?_⟩
  · rw [EnvHelperWithDefault.resolve_set_ok name s dv msg env (.vStringView s) hset
      (by rw [ht]; rfl)]
  · rw [EnvHelper.get_set_ok name s .stringview msg env (.vStringView s) hset rfl]

/-- C9 witness: "HOME" set to "/home/user" with text target yields the view
"/home/user" in both resolvers. -/
theorem c9_text_exact_witness :
    (EnvHelperWithDefault.resolve "HOME" (.dText ['x', Char.ofNat 0]) false
        (envSet "HOME" "/home/user")).value = .vStringView "/home/user" ∧
    (EnvHelper.get "HOME" .stringview false (envSet "HOME" "/home/user")).result
        = .ok (.vStringView "/home/user") := by
  have h := c9_text_exact "HOME" "/home/user" (.dText ['x', Char.ofNat 0]) false
    (envSet "HOME" "/home/user") (by decide) rfl
  exact ⟨h.2.1, h.2.2⟩

/-- C10: single-character and text conversions are total: every present text
(the empty string included) converts for the char target to its first byte —
the empty string to the NUL character, not to the default — and for the text
target to a view; consequently the conversion-failure branch is unreachable
for these targets, and the no-default resolver with a text (or char) target
can only fail with NotSet. -/
theorem c10_char_text_total (s name : String) (dv : DefaultValueType)
    (msg : Bool) (env : Env) :
    convert .char s = .ok (.vChar (charOfEnv s)) ∧
    charOfEnv "" = Char.ofNat 0 ∧
    convert .stringview s = .ok (.vStringView s) ∧
    (env name = some "" → dv.targetType = .char →
      (EnvHelperWithDefault.resolve name dv msg env).value
          = .vChar (Char.ofNat 0)) ∧
    (∀ e, (EnvHelper.get name .stringview msg env).result = .error e →
      e = .notSet) ∧
    (∀ e, (EnvHelper.get name .char msg env).result = .error e → e = .notSet) := by
  refine ⟨rfl, rfl, rfl, ?_, ?_, ?_⟩
  · intro hset ht
    rw [EnvHelperWithDefault.resolve_set_ok name "" dv msg env
      (.vChar (Char.ofNat 0)) hset (by rw [ht]; rfl)]
  · intro e he
    cases hset : env name with
    | none =>
        rw [EnvHelper.get_unset name .stringview msg env hset] at he
        cases he
        rfl
    | some s' =>
        rw [EnvHelper.get_set_ok name s' .stringview msg env (.vStringView s')
          hset rfl] at he
        cases he
  · intro e he
    cases hset : env name with
    | none =>
        rw [EnvHelper.get_unset name .char msg env hset] at he
        cases he
        rfl
    | some s' =>
        rw [EnvHelper.get_set_ok name s' .char msg env (.vChar (charOfEnv s'))
          hset rfl] at he
        cases he

/-- C10 witness: "X" set to the empty string with char target resolves to the
NUL character (not the default 'd'), and with the variable absent the
no-default text-target resolver's only failure is NotSet. -/
theorem c10_char_text_total_witness :
    (EnvHelperWithDefault.resolve "X" (.dChar 'd') false (envSet "X" "")).value
        = .vChar (Char.ofNat 0) ∧
    (EnvHelper.get "X" .stringview false envEmpty).result = .error .notSet := by
  have h := c10_char_text_total "" "X" (.dChar 'd') false (envSet "X" "")
  refine ⟨h.2.2.2.1 (by decide) rfl, rfl⟩

/-! ## Numeric-prefix parsing lemmas (for C8) -/

theorem takeWhile_append_all {p : Char → Bool} (d r : List Char)
    (h : ∀ c ∈ d, p c = true) : (d ++ r).takeWhile p = d ++ r.takeWhile p := by
  induction d with
  | nil => simp
  | cons c d ih =>
      have hc := h c (by simp)
      simp [List.takeWhile_cons, hc, ih (fun x hx => h x (by simp [hx]))]

theorem dropWhile_append_all {p : Char → Bool} (d r : List Char)
    (h : ∀ c ∈ d, p c = true) : (d ++ r).dropWhile p = r.dropWhile p := by
  induction d with
  | nil => simp
  | cons c d ih =>
      have hc := h c (by simp)
      simp [List.dropWhile_cons, hc, ih (fun x hx => h x (by simp [hx]))]

theorem digit_not_cspace {c : Char} (h : c.isDigit = true) : isCSpace c = false := by
  cases his : isCSpace c
  · rfl
  · exfalso
    unfold isCSpace at his
    simp only [Bool.or_eq_true, decide_eq_true_eq] at his
    rcases his with ((((h1 | h2) | h3) | h4) | h5) | h6
    · subst h1; exact absurd h (by decide)
    · subst h2; exact absurd h (by decide)
    · subst h3; exact absurd h (by decide)
    · rw [← h4] at h; exact absurd h (by decide)
    · rw [← h5] at h; exact absurd h (by decide)
    · subst h6; exact absurd h (by decide)

theorem digit_ne_marks {c : Char} (h : c.isDigit = true) :
    c ≠ '-' ∧ c ≠ '+' ∧ c ≠ '.' ∧ c ≠ 'e' ∧ c ≠ 'E' ∧ c ≠ 'x' ∧ c ≠ 'X' := by
  refine ⟨?_, ?_, ?_, ?_, ?_, ?_, ?_⟩ <;> rintro rfl <;> exact absurd h (by decide)

theorem splitSign_no_sign {c : Char} (l : List Char) (h : c.isDigit = true) :
    splitSign (c :: l) = (false, c :: l) := by
  obtain ⟨h1, h2, -⟩ := digit_ne_marks h
  simp only [splitSign]
  rw [if_neg h1, if_neg h2]

theorem takeWhile_head_stop {p : Char → Bool} (r : List Char)
    (h : ∀ c, r.head? = some c → p c = false) : r.takeWhile p = [] := by
  cases r with
  | nil => rfl
  | cons c r' => rw [List.takeWhile_cons, h c rfl]; simp

theorem dropWhile_head_stop {p : Char → Bool} (r : List Char)
    (h : ∀ c, r.head? = some c → p c = false) : r.dropWhile p = r := by
  cases r with
  | nil => rfl
  | cons c r' => rw [List.dropWhile_cons, h c rfl]; simp

/-- On a nonempty all-digit run followed by a non-digit (or nothing), the
`strtol` model consumes exactly the digit run and ignores the rest. -/
theorem strtolModel_digits (d r : List Char) (hd : d ≠ [])
    (hdig : ∀ c ∈ d, c.isDigit = true)
    (hr : ∀ c, r.head? = some c → c.isDigit = false) :
    strtolModel (d ++ r) = some ((digitsToNat d : Int)) := by
  obtain ⟨c, d', rfl⟩ := List.exists_cons_of_ne_nil hd
  have hc := hdig c (by simp)
  have hdig' : ∀ x ∈ d', x.isDigit = true := fun x hx => hdig x (by simp [hx])
  unfold strtolModel
  rw [List.cons_append, List.dropWhile_cons, digit_not_cspace hc]
  simp only [Bool.false_eq_true, if_false]
  rw [splitSign_no_sign (d' ++ r) hc]
  simp only [List.takeWhile_cons, hc, if_true,
    takeWhile_append_all d' r hdig', takeWhile_head_stop r hr, List.append_nil]
  simp [List.isEmpty]

/-- On a nonempty all-digit run followed by a character extending no
floating-point parse — in particular not the `x`/`X` that would complete the
hexadecimal prefix after a lone `0` — or by nothing, the `strtof` model
consumes exactly the digit run and ignores the rest. -/
theorem strtofModel_digits (d r : List Char) (hd : d ≠ [])
    (hdig : ∀ c ∈ d, c.isDigit = true)
    (hr : ∀ c, r.head? = some c →
      c.isDigit = false ∧ c ≠ '.' ∧ c ≠ 'e' ∧ c ≠ 'E' ∧
        ¬(d = ['0'] ∧ (c = 'x' ∨ c = 'X'))) :
    strtofModel (d ++ r) = some ((digitsToNat d : ℚ)) := by
  obtain ⟨c, d', rfl⟩ := List.exists_cons_of_ne_nil hd
  have hc := hdig c (by simp)
  have hdig' : ∀ x ∈ d', x.isDigit = true := fun x hx => hdig x (by simp [hx])
  have hrd : ∀ x, r.head? = some x → x.isDigit = false := fun x hx => (hr x hx).1
  have hhex : isHexStart (c :: (d' ++ r)) = false := by
    cases d' with
    | nil =>
        cases r with
        | nil => rfl
        | cons x r' =>
            obtain ⟨-, -, -, -, hno⟩ := hr x rfl
            simp only [List.nil_append, isHexStart]
            by_cases h0 : c = '0'
            · subst h0
              have hxx : ¬(x = 'x' ∨ x = 'X') := fun hxx => hno ⟨rfl, hxx⟩
              rw [not_or] at hxx
              simp [hxx.1, hxx.2]
            · simp [h0]
    | cons c₂ d'' =>
        have hc₂ := hdig' c₂ (by simp)
        obtain ⟨-, -, -, -, -, hx2, hX2⟩ := digit_ne_marks hc₂
        simp only [List.cons_append, isHexStart]
        simp [hx2, hX2]
  have hman : parseMantissa (c :: (d' ++ r)) = some ((digitsToNat (c :: d'), 0), r) := by
    unfold parseMantissa
    simp only [List.takeWhile_cons, List.dropWhile_cons, hc, if_true,
      takeWhile_append_all d' r hdig', dropWhile_append_all d' r hdig',
      takeWhile_head_stop r hrd, dropWhile_head_stop r hrd, List.append_nil]
    cases r with
    | nil => simp [List.isEmpty]
    | cons x r' =>
        obtain ⟨-, hdot, -, -, -⟩ := hr x rfl
        simp only []
        rw [if_neg hdot]
        simp [List.isEmpty]
  have hexp : parseExpPart r = (0, r) := by
    cases r with
    | nil => rfl
    | cons x r' =>
        obtain ⟨-, -, he, hE, -⟩ := hr x rfl
        unfold parseExpPart
        simp only []
        rw [if_neg (by simp [he, hE])]
  unfold strtofModel
  rw [List.cons_append, List.dropWhile_cons, digit_not_cspace hc]
  simp only [Bool.false_eq_true, if_false]
  rw [splitSign_no_sign (d' ++ r) hc]
  rw [hhex]
  simp only [Bool.false_eq_true, if_false]
  simp only [hman]
  simp only [hexp]
  simp [decScale]

theorem stoiModel_digits (d r : List Char) (hd : d ≠ [])
    (hdig : ∀ c ∈ d, c.isDigit = true)
    (hr : ∀ c, r.head? = some c → c.isDigit = false)
    (hfit : (digitsToNat d : Int) ≤ intMax) :
    stoiModel ⟨d ++ r⟩ = .ok ((digitsToNat d : Int)) := by
  unfold stoiModel
  rw [show (String.mk (d ++ r)).data = d ++ r from rfl,
      strtolModel_digits d r hd hdig hr]
  simp only []
  rw [if_neg ?_]
  refine not_or.mpr ⟨not_lt.mpr ?_, not_lt.mpr hfit⟩
  have h0 : (0 : Int) ≤ (digitsToNat d : Int) := Int.ofNat_nonneg _
  have hmin : intMin < 0 := by decide
  omega

theorem stolModel_digits (d r : List Char) (hd : d ≠ [])
    (hdig : ∀ c ∈ d, c.isDigit = true)
    (hr : ∀ c, r.head? = some c → c.isDigit = false)
    (hfit : (digitsToNat d : Int) ≤ longMax) :
    stolModel ⟨d ++ r⟩ = .ok ((digitsToNat d : Int)) := by
  unfold stolModel
  rw [show (String.mk (d ++ r)).data = d ++ r from rfl,
      strtolModel_digits d r hd hdig hr]
  simp only []
  rw [if_neg ?_]
  refine not_or.mpr ⟨not_lt.mpr ?_, not_lt.mpr hfit⟩
  have h0 : (0 : Int) ≤ (digitsToNat d : Int) := Int.ofNat_nonneg _
  have hmin : longMin < 0 := by decide
  omega

theorem stollModel_digits (d r : List Char) (hd : d ≠ [])
    (hdig : ∀ c ∈ d, c.isDigit = true)
    (hr : ∀ c, r.head? = some c → c.isDigit = false)
    (hfit : (digitsToNat d : Int) ≤ longMax) :
    stollModel ⟨d ++ r⟩ = .ok ((digitsToNat d : Int)) := by
  unfold stollModel
  rw [show (String.mk (d ++ r)).data = d ++ r from rfl,
      strtolModel_digits d r hd hdig hr]
  simp only []
  rw [if_neg ?_]
  refine not_or.mpr ⟨not_lt.mpr ?_, not_lt.mpr hfit⟩
  have h0 : (0 : Int) ≤ (digitsToNat d : Int) := Int.ofNat_nonneg _
  have hmin : longMin < 0 := by decide
  omega

theorem stofModel_digits (d r : List Char) (hd : d ≠ [])
    (hdig : ∀ c ∈ d, c.isDigit = true)
    (hr : ∀ c, r.head? = some c →
      c.isDigit = false ∧ c ≠ '.' ∧ c ≠ 'e' ∧ c ≠ 'E' ∧
        ¬(d = ['0'] ∧ (c = 'x' ∨ c = 'X')))
    (hfit : ¬ fltMax < (digitsToNat d : ℚ)) :
    stofModel ⟨d ++ r⟩ = .ok ((digitsToNat d : ℚ)) := by
  unfold stofModel
  rw [show (String.mk (d ++ r)).data = d ++ r from rfl,
      strtofModel_digits d r hd hdig hr]
  simp only []
  rw [if_neg ?_]
  refine not_or.mpr ⟨not_lt.mpr ?_, not_lt.mpr (not_lt.mp hfit)⟩
  have h0 : (0 : ℚ) ≤ (digitsToNat d : ℚ) := Nat.cast_nonneg _
  have hpos : (0 : ℚ) < fltMax := by decide
  linarith

theorem stodModel_digits (d r : List Char) (hd : d ≠ [])
    (hdig : ∀ c ∈ d, c.isDigit = true)
    (hr : ∀ c, r.head? = some c →
      c.isDigit = false ∧ c ≠ '.' ∧ c ≠ 'e' ∧ c ≠ 'E' ∧
        ¬(d = ['0'] ∧ (c = 'x' ∨ c = 'X')))
    (hfit : ¬ dblMax < (digitsToNat d : ℚ)) :
    stodModel ⟨d ++ r⟩ = .ok ((digitsToNat d : ℚ)) := by
  unfold stodModel
  rw [show (String.mk (d ++ r)).data = d ++ r from rfl,
      strtofModel_digits d r hd hdig hr]
  simp only []
  rw [if_neg ?_]
  refine not_or.mpr ⟨not_lt.mpr ?_, not_lt.mpr (not_lt.mp hfit)⟩
  have h0 : (0 : ℚ) ≤ (digitsToNat d : ℚ) := Nat.cast_nonneg _
  have hpos : (0 : ℚ) < dblMax := by decide
  linarith

theorem stoldModel_digits (d r : List Char) (hd : d ≠ [])
    (hdig : ∀ c ∈ d, c.isDigit = true)
    (hr : ∀ c, r.head? = some c →
      c.isDigit = false ∧ c ≠ '.' ∧ c ≠ 'e' ∧ c ≠ 'E' ∧
        ¬(d = ['0'] ∧ (c = 'x' ∨ c = 'X')))
    (hfit : ¬ ldblMax < (digitsToNat d : ℚ)) :
    stoldModel ⟨d ++ r⟩ = .ok ((digitsToNat d : ℚ)) := by
  unfold stoldModel
  rw [show (String.mk (d ++ r)).data = d ++ r from rfl,
      strtofModel_digits d r hd hdig hr]
  simp only []
  rw [if_neg ?_]
  refine not_or.mpr ⟨not_lt.mpr ?_, not_lt.mpr (not_lt.mp hfit)⟩
  have h0 : (0 : ℚ) ≤ (digitsToNat d : ℚ) := Nat.cast_nonneg _
  have hpos : (0 : ℚ) < ldblMax := by decide
  linarith

theorem stopsNum_head_not_digit {t : TargetType} {d r : List Char}
    (h : stopsNum t d r = true) : ∀ c, r.head? = some c → c.isDigit = false := by
  intro c hc
  cases r with
  | nil => exact absurd hc (by simp)
  | cons x r' =>
      rw [List.head?_cons] at hc
      injection hc with hxc
      subst hxc
      simp only [stopsNum] at h
      by_cases hf : t.isFloatTy = true
      · rw [if_pos hf] at h
        simp only [Bool.and_eq_true, Bool.not_eq_eq_eq_not, Bool.not_true,
          Bool.or_eq_false_iff] at h
        exact h.1.1.1.1
      · rw [if_neg hf] at h
        simp only [Bool.not_eq_eq_eq_not, Bool.not_true] at h
        exact h

theorem stopsNum_float_marks {t : TargetType} {d r : List Char}
    (hf : t.isFloatTy = true) (h : stopsNum t d r = true) :
    ∀ c, r.head? = some c →
      c.isDigit = false ∧ c ≠ '.' ∧ c ≠ 'e' ∧ c ≠ 'E' ∧
        ¬(d = ['0'] ∧ (c = 'x' ∨ c = 'X')) := by
  intro c hc
  cases r with
  | nil => exact absurd hc (by simp)
  | cons x r' =>
      rw [List.head?_cons] at hc
      injection hc with hxc
      subst hxc
      simp only [stopsNum, if_pos hf] at h
      simp only [Bool.and_eq_true, Bool.not_eq_eq_eq_not, Bool.not_true,
        Bool.or_eq_false_iff, Bool.and_eq_false_iff,
        decide_eq_false_iff_not] at h
      refine ⟨h.1.1.1.1, h.1.1.1.2, h.1.1.2, h.1.2, ?_⟩
      rintro ⟨hd0, hxx⟩
      rcases h.2 with h2 | h2
      · exact h2 hd0
      · rcases hxx with rfl | rfl
        · exact h2.1 rfl
        · exact h2.2 rfl

/-- C8: numeric parsing accepts trailing non-numeric characters rather than
failing: for every numeric target, a variable set to a digit run followed by
characters that extend no numeric parse (e.g. "123abc"; for floating targets
this excludes a digit, fraction point, decimal exponent letter, and — after
the lone digit `0` — the hexadecimal prefix letters `x`/`X`) converts to the
digit run's value — the with-default resolver returns it (no fallback to the
default) and the no-default resolver returns it (no ConversionFailed). -/
theorem c8_trailing_nonnumeric (t : TargetType) (d r : List Char) (name : String)
    (dv : DefaultValueType) (msg : Bool) (env : Env)
    (hnum : t.isNumeric = true) (hd : d ≠ [])
    (hdig : ∀ c ∈ d, c.isDigit = true)
    (hstop : stopsNum t d r = true)
    (hfit : natFits t (digitsToNat d) = true)
    (henv : env name = some ⟨d ++ r⟩)
    (hdvt : dv.targetType = t) :
    convert t ⟨d ++ r⟩ = .ok (mkNumValue t (digitsToNat d)) ∧
    (EnvHelperWithDefault.resolve name dv msg env).value
        = mkNumValue t (digitsToNat d) ∧
    (EnvHelper.get name t msg env).result
        = .ok (mkNumValue t (digitsToNat d)) := by
  have hconv : convert t ⟨d ++ r⟩ = .ok (mkNumValue t (digitsToNat d)) := by
    cases t with
    | int =>
        have hr := stopsNum_head_not_digit hstop
        simp only [natFits, decide_eq_true_eq] at hfit
        simp only [convert, mkNumValue]
        rw [stoiModel_digits d r hd hdig hr hfit]
        rfl
    | long =>
        have hr := stopsNum_head_not_digit hstop
        simp only [natFits, decide_eq_true_eq] at hfit
        simp only [convert, mkNumValue]
        rw [stolModel_digits d r hd hdig hr hfit]
        rfl
    | longlong =>
        have hr := stopsNum_head_not_digit hstop
        simp only [natFits, decide_eq_true_eq] at hfit
        simp only [convert, mkNumValue]
        rw [stollModel_digits d r hd hdig hr hfit]
        rfl
    | float =>
        have hr := @stopsNum_float_marks .float d r rfl hstop
        simp only [natFits, decide_eq_true_eq] at hfit
        simp only [convert, mkNumValue]
        rw [stofModel_digits d r hd hdig hr hfit]
        rfl
    | double =>
        have hr := @stopsNum_float_marks .double d r rfl hstop
        simp only [natFits, decide_eq_true_eq] at hfit
        simp only [convert, mkNumValue]
        rw [stodModel_digits d r hd hdig hr hfit]
        rfl
    | longdouble =>
        have hr := @stopsNum_float_marks .longdouble d r rfl hstop
        simp only [natFits, decide_eq_true_eq] at hfit
        simp only [convert, mkNumValue]
        rw [stoldModel_digits d r hd hdig hr hfit]
        rfl
    | char => exact absurd hnum (by decide)
    | stringview => exact absurd hnum (by decide)
  refine ⟨hconv, ?_, ?_⟩
  · rw [EnvHelperWithDefault.resolve_set_ok name ⟨d ++ r⟩ dv msg env
      (mkNumValue t (digitsToNat d)) henv (by rw [hdvt]; exact hconv)]
  · rw [EnvHelper.get_set_ok name ⟨d ++ r⟩ t msg env
      (mkNumValue t (digitsToNat d)) henv hconv]

/-- C8 witness: "X" set to "123abc" with integer target resolves to 123 in
both resolvers (no fallback to the default 42, no ConversionFailed), and with
float target to 123 as well. -/
theorem c8_trailing_nonnumeric_witness :
    convert .int "123abc" = .ok (.vInt 123) ∧
    (EnvHelperWithDefault.resolve "X" (.dInt 42) false
        (envSet "X" "123abc")).value = .vInt 123 ∧
    (EnvHelper.get "X" .int false (envSet "X" "123abc")).result
        = .ok (.vInt 123) ∧
    (EnvHelperWithDefault.resolve "X" (.dFloat 0) false
        (envSet "X" "123abc")).value = .vFloat 123 := by
  have hi := c8_trailing_nonnumeric .int ['1', '2', '3'] ['a', 'b', 'c'] "X"
    (.dInt 42) false (envSet "X" "123abc") (by decide) (by decide) (by decide)
    (by decide) (by decide) (by decide) rfl
  have hf := c8_trailing_nonnumeric .float ['1', '2', '3'] ['a', 'b', 'c'] "X"
    (.dFloat 0) false (envSet "X" "123abc") (by decide) (by decide) (by decide)
    (by decide) (by decide) (by decide) rfl
  obtain ⟨h1, h2, h3⟩ := hi
  have e1 : (⟨['1', '2', '3'] ++ ['a', 'b', 'c']⟩ : String) = "123abc" := by decide
  have e2 : mkNumValue .int (digitsToNat ['1', '2', '3']) = .vInt 123 := by decide
  have e3 : mkNumValue .float (digitsToNat ['1', '2', '3']) = .vFloat 123 := by decide
  rw [e1, e2] at h1
  rw [e2] at h2
  rw [e2] at h3
  have h4 := hf.2.1
  rw [e3] at h4
  exact ⟨h1, h2, h3, h4⟩

/-! ## Sanity: the kernel-evaluation helpers agree with the standard forms -/

theorem powAux_eq (fuel : ℕ) : ∀ b n, n ≤ fuel → powAux fuel b n = b ^ n := by
  induction fuel with
  | zero =>
      intro b n hn
      have h0 : n = 0 := by omega
      subst h0
      simp [powAux]
  | succ f ih =>
      intro b n hn
      rw [powAux]
      by_cases h0 : n = 0
      · simp [h0]
      · have hdiv : n / 2 ≤ f := by omega
        simp only [if_neg h0]
        rw [ih (b * b) (n / 2) hdiv]
        have hbb : (b * b) ^ (n / 2) = b ^ (2 * (n / 2)) := by
          rw [pow_mul, sq b]
        by_cases h1 : n % 2 = 1
        · rw [if_pos h1, hbb]
          have hn2 : n = 2 * (n / 2) + 1 := by omega
          conv_rhs => rw [hn2]
          rw [pow_succ]
          ring
        · rw [if_neg h1, hbb]
          congr 1
          omega

theorem powFast_eq (b n : ℕ) : powFast b n = b ^ n := powAux_eq n b n le_rfl

theorem fltMax_eq : fltMax = (((2 ^ 24 - 1) * 2 ^ 104 : ℕ) : ℚ) := by
  rw [fltMax, powFast_eq, powFast_eq]

theorem dblMax_eq : dblMax = (((2 ^ 53 - 1) * 2 ^ 971 : ℕ) : ℚ) := by
  rw [dblMax, powFast_eq, powFast_eq]

theorem ldblMax_eq : ldblMax = (((2 ^ 64 - 1) * 2 ^ 16320 : ℕ) : ℚ) := by
  rw [ldblMax, powFast_eq, powFast_eq]

theorem decScale_eq (a : ℕ) (t : Int) : decScale a t = (a : ℚ) * (10 : ℚ) ^ t := by
  unfold decScale
  split
  · rename_i h
    push_cast
    rw [← zpow_natCast (10 : ℚ) t.toNat, Int.toNat_of_nonneg h]
  · rename_i h
    rw [Rat.mkRat_eq_div]
    push_cast
    rw [← zpow_natCast (10 : ℚ) (-t).toNat, Int.toNat_of_nonneg (by omega),
        div_eq_mul_inv, ← zpow_neg, neg_neg]

theorem binScale_eq (a : ℕ) (t : Int) : binScale a t = (a : ℚ) * (2 : ℚ) ^ t := by
  unfold binScale
  split
  · rename_i h
    push_cast
    rw [← zpow_natCast (2 : ℚ) t.toNat, Int.toNat_of_nonneg h]
  · rename_i h
    rw [Rat.mkRat_eq_div]
    push_cast
    rw [← zpow_natCast (2 : ℚ) (-t).toNat, Int.toNat_of_nonneg (by omega),
        div_eq_mul_inv, ← zpow_neg, neg_neg]

/-- Sanity: the hexadecimal floating form is parsed — `stof("0x1")` is 1, not
a decimal `0` stopped at the `x`. -/
theorem stofModel_hex_one : stofModel "0x1" = .ok 1 := by decide

/-- Sanity: a hexadecimal mantissa with fraction and binary exponent —
`stof("0x1.8p1")` is 3 exactly. -/
theorem stofModel_hex_frac : stofModel "0x1.8p1" = .ok 3 := by decide

/-- Sanity: when no hex digit follows the `0x` prefix the subject sequence is
the initial `0` alone — `stof("0xg")` is 0. -/
theorem stofModel_hex_bare : stofModel "0xg" = .ok 0 := by decide

/-- Sanity: after a digit run other than a lone `0` an `x` cannot switch to
hexadecimal — `stof("00x1")` parses the decimal run `00`. -/
theorem stofModel_hex_no_switch : stofModel "00x1" = .ok 0 := by decide
